import Mathlib

/-!
Verification of the Bank-referral-system backend core (backend/server.js):
the account ledger, the referral-assignment rule, and the single-item and
bulk creation handlers, embedded shallowly as pure functions over a list
of account records.
-/

namespace BankReferral

/-- An account record of the `accounts` table: `id` is the integer primary
key, `introducer_id` and `beneficiary_id` are nullable integers. -/
structure Account where
  id : Int
  introducer_id : Option Int
  beneficiary_id : Option Int
  deriving DecidableEq, Repr

/-- The ledger: the ordered contents of the `accounts` table. -/
abbrev Ledger := List Account

/-- Whether some record of the ledger already carries this primary key,
i.e. whether an INSERT with this id would violate the PK constraint. -/
def hasId (L : Ledger) (a : Int) : Bool :=
  L.any (fun r => r.id = a)

/-- `SELECT ... FROM accounts WHERE id = $1` (unique by primary key). -/
def findById (L : Ledger) (i : Int) : Option Account :=
  L.find? (fun r => r.id = i)

/-- `SELECT COUNT(*)::int AS cnt FROM accounts WHERE introducer_id = $1`:
NULL introducers never match an integer parameter. -/
def countIntroducer (L : Ledger) (x : Int) : Nat :=
  (L.filter (fun r => r.introducer_id = some x)).length

/-- `UPDATE accounts SET beneficiary_id = $1 WHERE id = $2`. -/
def updateBeneficiary (L : Ledger) (a : Int) (b : Option Int) : Ledger :=
  L.map (fun r => if r.id = a then { r with beneficiary_id := b } else r)

/-- A JavaScript error object as the handlers observe it: an optional
Postgres error code and a message string. -/
structure JsError where
  code : Option String
  message : String
  deriving DecidableEq, Repr

/-- The error Postgres raises on a primary-key violation (code 23505). -/
def dupKeyError : JsError :=
  { code := some "23505", message := "duplicate key value violates unique constraint" }

/-- `INSERT INTO accounts (id, introducer_id, beneficiary_id) VALUES ($1, $2, NULL)`:
fails with the 23505 error when the id is already present, otherwise
appends the provisional record. -/
def insertAccount (L : Ledger) (a : Int) (i : Int) : Except JsError Ledger :=
  if hasId L a then .error dupKeyError
  else .ok (L ++ [{ id := a, introducer_id := some i, beneficiary_id := none }])

/-- The referral-assignment rule as written identically in both handlers
(server.js lines 62-92 and 169-194): count the introducer's referrals in
the current (post-insert) ledger; odd count gives the introducer itself;
even count gives the beneficiary of the introducer's introducer, found by
`rows[0]?.introducer_id ?? null` and `rows[0]?.beneficiary_id ?? null`. -/
def assignBeneficiary (introducerId : Int) (L : Ledger) : Option Int :=
  let referralCount := countIntroducer L introducerId
  if referralCount % 2 = 1 then
    some introducerId
  else
    match (findById L introducerId).bind (fun r => r.introducer_id) with
    | none => none
    | some g => (findById L g).bind (fun r => r.beneficiary_id)

/-- The spec's own wording of the assignment rule (spec section 4.1 /
claim C1), written independently as an explicit case analysis, to be
compared against `assignBeneficiary`. -/
def assignSpec (introducerId : Int) (L : Ledger) : Option Int :=
  let n := countIntroducer L introducerId
  if n % 2 = 1 then some introducerId
  else
    match findById L introducerId with
    | none => none
    | some r =>
      match r.introducer_id with
      | none => none
      | some g =>
        match findById L g with
        | none => none
        | some r2 => r2.beneficiary_id

/-- The try-block of POST /addAccount after validation (server.js lines
55-98): insert the provisional record, run the assignment rule on the
post-insert ledger, write the beneficiary back onto the new record.
Returns the computed beneficiary and the resulting ledger. -/
def createCore (account_id introducer_id : Int) (L : Ledger) :
    Except JsError (Option Int × Ledger) :=
  match insertAccount L account_id introducer_id with
  | .error e => .error e
  | .ok L1 =>
    let beneficiaryId := assignBeneficiary introducer_id L1
    .ok (beneficiaryId, updateBeneficiary L1 account_id beneficiaryId)

/-- A JSON value as the handlers can receive it in a request-body field;
`undef` stands for an absent field, `nanV` and `infV` for the non-finite
numbers. -/
inductive JsVal where
  | null
  | undef
  | boolean (b : Bool)
  | num (n : Int)
  | nanV
  | infV
  | str (s : String)
  deriving DecidableEq, Repr

/-- A nonempty all-digit character list read as a natural number. -/
def digitsOf (cs : List Char) : Option Nat :=
  if cs = [] then none
  else if cs.all (fun c => c.isDigit) then
    some (cs.foldl (fun n c => 10 * n + (c.toNat - 48)) 0)
  else none

/-- The integer fragment of JavaScript string-to-number conversion:
surrounding spaces are ignored, the empty or all-space string converts to
0, an optionally signed digit string converts to its value, and anything
else converts to NaN (`none` here). -/
def parseJsNumber (s : String) : Option Int :=
  let cs := s.toList.dropWhile (fun c => c = ' ')
  let cs2 := (cs.reverse.dropWhile (fun c => c = ' ')).reverse
  match cs2 with
  | [] => some 0
  | c :: rest =>
    if c = '-' then (digitsOf rest).map (fun n => -(n : Int))
    else if c = '+' then (digitsOf rest).map (fun n => (n : Int))
    else (digitsOf (c :: rest)).map (fun n => (n : Int))

/-- `Number(v)` followed by the `Number.isFinite` test of the handlers:
`some n` when the value coerces to the finite number n, `none` when it
coerces to NaN or an infinity (so the handler rejects it). -/
def toNumber : JsVal → Option Int
  | .null => some 0
  | .undef => none
  | .boolean b => some (if b then 1 else 0)
  | .num n => some n
  | .nanV => none
  | .infV => none
  | .str s => parseJsNumber s

/-- The observable HTTP responses of the two creation handlers. -/
inductive ApiResponse where
  | createdOne (id : Int) (introducer : Int) (beneficiary : Option Int)
  | createdMany (results : List (Int × Int × Option Int))
  | badRequest (msg : String)
  | conflict (msg : String)
  | serverError (msg : String)
  deriving DecidableEq, Repr

/-- The catch-block of POST /addAccount (server.js lines 106-115): a
23505 error becomes a 409 conflict with a fixed message, anything else a
500 with the fixed generic message. -/
def singleCatch (e : JsError) : ApiResponse :=
  if e.code = some "23505" then
    .conflict "Account with this account_id already exists"
  else .serverError "Database error"

/-- The catch-block of POST /addAccountsBulk (server.js lines 211-215):
after ROLLBACK it answers 500 with `err.message || "Database error"`. -/
def bulkCatch (e : JsError) : ApiResponse :=
  .serverError (if e.message = "" then "Database error" else e.message)

/-- POST /addAccount (server.js lines 45-116): coerce both fields with
Number, reject non-finite results with a 400 before touching the ledger,
otherwise run the insert/assign/finalize steps and map errors through the
catch-block. Returns the response and the resulting ledger. -/
def addAccount (account_id introducer_id : JsVal) (L : Ledger) : ApiResponse × Ledger :=
  match toNumber account_id, toNumber introducer_id with
  | some a, some i =>
    match createCore a i L with
    | .ok (ben, L2) => (.createdOne a i ben, L2)
    | .error e => (singleCatch e, L)
  | _, _ => (.badRequest "account_id and introducer_id must be numbers", L)

/-- The error thrown by the bulk handler's per-item validation. -/
def invalidItemError : JsError :=
  { code := none, message := "Invalid item: account_id and introducer_id must be numbers" }

/-- The for-loop of POST /addAccountsBulk (server.js lines 154-207):
per item, coerce and validate (throwing on a non-finite field), insert
the provisional record, run the assignment rule on the working ledger,
finalize, and accumulate the result triple in input order. -/
def bulkLoop (items : List (JsVal × JsVal)) (L : Ledger)
    (acc : List (Int × Int × Option Int)) :
    Except JsError (List (Int × Int × Option Int) × Ledger) :=
  match items with
  | [] => .ok (acc, L)
  | item :: rest =>
    match toNumber item.1, toNumber item.2 with
    | some a, some i =>
      match insertAccount L a i with
      | .error e => .error e
      | .ok L1 =>
        let beneficiaryId := assignBeneficiary i L1
        let L2 := updateBeneficiary L1 a beneficiaryId
        bulkLoop rest L2 (acc ++ [(a, i, beneficiaryId)])
    | _, _ => .error invalidItemError

/-- POST /addAccountsBulk (server.js lines 142-218): an empty (or
non-array) body is a 400 before any ledger interaction; otherwise the
loop runs inside BEGIN/COMMIT, so an error rolls the ledger back to its
pre-call state and the catch-block builds the single error response. -/
def addAccountsBulk (items : List (JsVal × JsVal)) (L : Ledger) : ApiResponse × Ledger :=
  if items.isEmpty then (.badRequest "Body must be a non-empty array", L)
  else
    match bulkLoop items L [] with
    | .ok (results, L2) => (.createdMany results, L2)
    | .error e => (bulkCatch e, L)

/-- Sequential composition of the single-item core steps, one item after
another, used to state the refinement claim about the bulk handler. -/
def seqCreate (items : List (Int × Int)) (L : Ledger) :
    Except JsError (List (Int × Int × Option Int) × Ledger) :=
  match items with
  | [] => .ok ([], L)
  | (a, i) :: rest =>
    match createCore a i L with
    | .error e => .error e
    | .ok (ben, L2) =>
      match seqCreate rest L2 with
      | .error e => .error e
      | .ok (results, L3) => .ok ((a, i, ben) :: results, L3)

/-- Coercion of a whole batch: `some` of the coerced pairs when every
item's two fields are finite numbers, `none` otherwise. -/
def coerceItems : List (JsVal × JsVal) → Option (List (Int × Int))
  | [] => some []
  | p :: rest =>
    match toNumber p.1, toNumber p.2 with
    | some a, some i => (coerceItems rest).map (fun cs => (a, i) :: cs)
    | _, _ => none

/-- A sequence of single-item creations that all name the same introducer
X: the harness for the alternating-beneficiary claim. -/
def runSeq (ids : List Int) (X : Int) (L : Ledger) :
    Except JsError (List (Option Int) × Ledger) :=
  match ids with
  | [] => .ok ([], L)
  | a :: rest =>
    match createCore a X L with
    | .error e => .error e
    | .ok (ben, L2) =>
      match runSeq rest X L2 with
      | .error e => .error e
      | .ok (bens, L3) => .ok (ben :: bens, L3)

end BankReferral

namespace BankReferral

/-! ### Ledger-operation lemmas -/

theorem hasId_append (L1 L2 : Ledger) (a : Int) :
    hasId (L1 ++ L2) a = (hasId L1 a || hasId L2 a) := by
  simp [hasId, List.any_append]

theorem hasId_update (L : Ledger) (x : Int) (b : Option Int) (a : Int) :
    hasId (updateBeneficiary L x b) a = hasId L a := by
  induction L with
  | nil => rfl
  | cons r t ih =>
    simp only [updateBeneficiary, List.map_cons, hasId, List.any_cons] at *
    by_cases h : r.id = x <;> simp [h, ih]

theorem countIntroducer_append (L1 L2 : Ledger) (x : Int) :
    countIntroducer (L1 ++ L2) x = countIntroducer L1 x + countIntroducer L2 x := by
  simp [countIntroducer, List.filter_append]

theorem countIntroducer_update (L : Ledger) (a : Int) (b : Option Int) (x : Int) :
    countIntroducer (updateBeneficiary L a b) x = countIntroducer L x := by
  induction L with
  | nil => rfl
  | cons r t ih =>
    simp only [updateBeneficiary, List.map_cons, countIntroducer] at *
    by_cases h : r.id = a <;> by_cases h2 : r.introducer_id = some x <;>
      simp [h, h2, List.filter_cons, ih]

theorem findById_eq_none_iff (L : Ledger) (x : Int) :
    findById L x = none ↔ hasId L x = false := by
  simp only [findById, hasId, List.find?_eq_none, List.any_eq_false]

theorem findById_append_left (L1 L2 : Ledger) (x : Int) (r : Account)
    (h : findById L1 x = some r) : findById (L1 ++ L2) x = some r := by
  simp [findById, List.find?_append] at *
  simp [h, Option.or]

theorem findById_append_right (L1 L2 : Ledger) (x : Int)
    (h : findById L1 x = none) : findById (L1 ++ L2) x = findById L2 x := by
  simp only [findById, List.find?_append] at *
  simp [h, Option.or]

theorem findById_update_none (L : Ledger) (a : Int) (b : Option Int) (x : Int)
    (h : findById L x = none) : findById (updateBeneficiary L a b) x = none := by
  rw [findById_eq_none_iff] at *
  rw [hasId_update]
  exact h

theorem updateBeneficiary_append (L1 L2 : Ledger) (a : Int) (b : Option Int) :
    updateBeneficiary (L1 ++ L2) a b = updateBeneficiary L1 a b ++ updateBeneficiary L2 a b := by
  simp [updateBeneficiary, List.map_append]

theorem updateBeneficiary_of_not_hasId (L : Ledger) (a : Int) (b : Option Int)
    (h : hasId L a = false) : updateBeneficiary L a b = L := by
  induction L with
  | nil => rfl
  | cons r t ih =>
    simp only [hasId, List.any_cons, Bool.or_eq_false_iff, decide_eq_false_iff_not] at h
    simp only [updateBeneficiary, List.map_cons, if_neg h.1]
    have := ih (by simp [hasId, h.2])
    simp only [updateBeneficiary] at this
    rw [this]

end BankReferral

namespace BankReferral

theorem assign_eq_assignSpec (i : Int) (L : Ledger) :
    assignBeneficiary i L = assignSpec i L := by
  unfold assignBeneficiary assignSpec
  by_cases h : countIntroducer L i % 2 = 1
  · simp [h]
  · simp only [h, if_false]
    cases hf : findById L i with
    | none => simp [hf]
    | some r =>
      simp only [hf, Option.bind_some]
      cases hr : r.introducer_id with
      | none => simp [hr]
      | some g =>
        cases hg : findById L g <;> simp [hr, hg]

theorem countIntroducer_insert (L : Ledger) (a i : Int) :
    countIntroducer (L ++ [{ id := a, introducer_id := some i, beneficiary_id := none }]) i
      = countIntroducer L i + 1 := by
  simp [countIntroducer_append, countIntroducer]

/-- C1: for every account creation, the beneficiary computed by the
referral assigner agrees with the spec's rule: the referral count taken
on the post-insert ledger is at least 1; an odd count yields the
introducer itself; an even count yields the beneficiary_id of the
grand-introducer's record, and none when the introducer's record is
missing, its introducer_id is absent, or the grand-introducer's record is
missing. -/
theorem c1_referral_assigner :
    (∀ i : Int, ∀ L : Ledger, assignBeneficiary i L = assignSpec i L) ∧
    (∀ a i : Int, ∀ L : Ledger, hasId L a = false →
      1 ≤ countIntroducer (L ++ [{ id := a, introducer_id := some i, beneficiary_id := none }]) i ∧
      createCore a i L = .ok
        (assignSpec i (L ++ [{ id := a, introducer_id := some i, beneficiary_id := none }]),
         updateBeneficiary (L ++ [{ id := a, introducer_id := some i, beneficiary_id := none }]) a
           (assignSpec i (L ++ [{ id := a, introducer_id := some i, beneficiary_id := none }])))) := by
  refine ⟨assign_eq_assignSpec, ?_⟩
  intro a i L h
  constructor
  · rw [countIntroducer_insert]; omega
  · unfold createCore insertAccount
    rw [h]
    simp [assign_eq_assignSpec]

/-- Witness for C1 at a fresh id on the empty ledger. -/
theorem c1_referral_assigner_witness :
    1 ≤ countIntroducer [{ id := 1, introducer_id := some 2, beneficiary_id := none }] 2 ∧
    createCore 1 2 [] = .ok
      (assignSpec 2 [{ id := 1, introducer_id := some 2, beneficiary_id := none }],
       updateBeneficiary [{ id := 1, introducer_id := some 2, beneficiary_id := none }] 1
         (assignSpec 2 [{ id := 1, introducer_id := some 2, beneficiary_id := none }])) :=
  c1_referral_assigner.2 1 2 [] rfl

/-- C3: a single-item creation whose id duplicates an existing record
fails with the conflict response, the ledger is returned unchanged, no
finalized record is in the response, and the conflict response differs
from every generic storage-error response. -/
theorem c3_duplicate_id_conflict (L : Ledger) (av iv : JsVal) (a i : Int)
    (ha : toNumber av = some a) (hi : toNumber iv = some i)
    (hdup : hasId L a = true) :
    addAccount av iv L = (.conflict "Account with this account_id already exists", L) ∧
    (∀ m : String,
      (ApiResponse.conflict "Account with this account_id already exists") ≠ .serverError m) := by
  constructor
  · simp only [addAccount, ha, hi, createCore, insertAccount, hdup, if_true]
    simp [singleCatch, dupKeyError]
  · intro m hcontra
    cases hcontra

/-- Witness for C3: creating id 1 over a ledger that already holds id 1. -/
theorem c3_duplicate_id_conflict_witness :
    addAccount (.num 1) (.num 2) [{ id := 1, introducer_id := none, beneficiary_id := none }] =
      (.conflict "Account with this account_id already exists",
       [{ id := 1, introducer_id := none, beneficiary_id := none }]) ∧
    (∀ m : String,
      (ApiResponse.conflict "Account with this account_id already exists") ≠ .serverError m) :=
  c3_duplicate_id_conflict [{ id := 1, introducer_id := none, beneficiary_id := none }]
    (.num 1) (.num 2) 1 2 rfl rfl rfl

/-- C7: a single-item request with a field that does not coerce to a
finite number is rejected with the validation response and the ledger is
untouched; an empty batch body is likewise rejected with the validation
response and the ledger is untouched. -/
theorem c7_validation_fails_fast (av iv : JsVal) (L : Ledger)
    (h : toNumber av = none ∨ toNumber iv = none) :
    addAccount av iv L = (.badRequest "account_id and introducer_id must be numbers", L) ∧
    addAccountsBulk [] L = (.badRequest "Body must be a non-empty array", L) := by
  constructor
  · cases h with
    | inl h1 => simp [addAccount, h1]
    | inr h2 => cases h1 : toNumber av <;> simp [addAccount, h1, h2]
  · rfl

/-- Witness for C7: an absent account_id field on a nonempty ledger. -/
theorem c7_validation_fails_fast_witness :
    addAccount .undef (.num 1) [{ id := 9, introducer_id := none, beneficiary_id := none }] =
      (.badRequest "account_id and introducer_id must be numbers",
       [{ id := 9, introducer_id := none, beneficiary_id := none }]) ∧
    addAccountsBulk [] [{ id := 9, introducer_id := none, beneficiary_id := none }] =
      (.badRequest "Body must be a non-empty array",
       [{ id := 9, introducer_id := none, beneficiary_id := none }]) :=
  c7_validation_fails_fast .undef (.num 1)
    [{ id := 9, introducer_id := none, beneficiary_id := none }] (Or.inl rfl)

/-- C8 counterexample: a non-duplicate storage error reaching the bulk
handler's catch-block is answered with the underlying error's own
message, not the generic "Database error" — internal storage details are
exposed in the batch path, contrary to the claim. -/
theorem c8_counterexample :
    ({ code := none, message := "connection reset by peer" } : JsError).code ≠ some "23505" ∧
    bulkCatch { code := none, message := "connection reset by peer" } =
      .serverError "connection reset by peer" ∧
    bulkCatch { code := none, message := "connection reset by peer" } ≠
      .serverError "Database error" := by
  refine ⟨by decide, rfl, by decide⟩

/-- C8 amended: for every storage failure other than a duplicate-id
conflict, the single-item path answers with the fixed generic message and
never the underlying error's message, while the batch path answers with
the underlying error's message whenever it is nonempty, falling back to
the generic message only for an empty message. -/
theorem c8_error_exposure (e : JsError) (h : e.code ≠ some "23505") :
    singleCatch e = .serverError "Database error" ∧
    bulkCatch e = .serverError (if e.message = "" then "Database error" else e.message) := by
  constructor
  · unfold singleCatch
    rw [if_neg h]
  · rfl

/-- Witness for the amended C8 at a concrete non-duplicate error. -/
theorem c8_error_exposure_witness :
    singleCatch { code := none, message := "disk full" } = .serverError "Database error" ∧
    bulkCatch { code := none, message := "disk full" } =
      .serverError (if ("disk full" : String) = "" then "Database error" else "disk full") :=
  c8_error_exposure { code := none, message := "disk full" } (by decide)

end BankReferral

namespace BankReferral

theorem updateBeneficiary_insert (L : Ledger) (a i : Int) (b : Option Int)
    (h : hasId L a = false) :
    updateBeneficiary (L ++ [{ id := a, introducer_id := some i, beneficiary_id := none }]) a b
      = L ++ [{ id := a, introducer_id := some i, beneficiary_id := b }] := by
  rw [updateBeneficiary_append, updateBeneficiary_of_not_hasId L a b h]
  simp [updateBeneficiary]

theorem createCore_eq (a i : Int) (L : Ledger) :
    createCore a i L =
      if hasId L a then .error dupKeyError
      else
        .ok (assignBeneficiary i (L ++ [{ id := a, introducer_id := some i, beneficiary_id := none }]),
          L ++ [{ id := a, introducer_id := some i,
                  beneficiary_id := assignBeneficiary i
                    (L ++ [{ id := a, introducer_id := some i, beneficiary_id := none }]) }]) := by
  unfold createCore insertAccount
  cases hh : hasId L a
  · simp [hh, updateBeneficiary_insert L a i _ hh]
  · simp [hh]

/-- C10: validation accepts any field value that coerces to a finite
number under JavaScript Number conversion, not only number-typed values:
a numeric string, a boolean and an explicit null all pass; null coerces
to 0, so a request with introducer_id null creates the account with
introducer_id 0 rather than rejecting it or storing an absent
introducer; and exactly the values coercing to NaN or an infinity
(including absent fields) fail validation. -/
theorem c10_number_coercion :
    toNumber (.str "42") = some 42 ∧
    toNumber (.boolean true) = some 1 ∧
    toNumber (.boolean false) = some 0 ∧
    toNumber .null = some 0 ∧
    toNumber .undef = none ∧
    toNumber .nanV = none ∧
    toNumber .infV = none ∧
    (∀ L : Ledger, ∀ a : Int, hasId L a = false →
      addAccount (.num a) .null L =
        (.createdOne a 0
           (assignBeneficiary 0 (L ++ [{ id := a, introducer_id := some 0, beneficiary_id := none }])),
         L ++ [{ id := a, introducer_id := some 0,
                 beneficiary_id := assignBeneficiary 0
                   (L ++ [{ id := a, introducer_id := some 0, beneficiary_id := none }]) }])) ∧
    (∀ av iv : JsVal, ∀ n m : Int, ∀ L : Ledger,
      toNumber av = some n → toNumber iv = some m →
      (addAccount av iv L).1 ≠ .badRequest "account_id and introducer_id must be numbers") := by
  refine ⟨by decide, rfl, rfl, rfl, rfl, rfl, rfl, ?_, ?_⟩
  · intro L a h
    simp only [addAccount, toNumber, createCore_eq, h, Bool.false_eq_true, if_false]
  · intro av iv n m L ha hi
    simp only [addAccount, ha, hi]
    cases hc : createCore n m L with
    | ok p => simp [hc]
    | error e =>
      by_cases hcode : e.code = some "23505" <;> simp [hc, singleCatch, hcode]

/-- Witness for C10: introducer_id null on the empty ledger stores
introducer 0, and finite-coercing fields are never rejected. -/
theorem c10_number_coercion_witness :
    addAccount (.num 7) .null [] =
      (.createdOne 7 0 (some 0),
       [{ id := 7, introducer_id := some 0, beneficiary_id := some 0 }]) ∧
    (addAccount (.str "42") (.boolean true) []).1 ≠
      .badRequest "account_id and introducer_id must be numbers" := by
  constructor
  · have h := c10_number_coercion.2.2.2.2.2.2.2.1 [] 7 rfl
    exact h.trans (by decide)
  · exact c10_number_coercion.2.2.2.2.2.2.2.2 (.str "42") (.boolean true) 42 1 []
      (by decide) rfl

/-- C5: when the introducer X has a record whose introducer_id is Y and
Y has a record, an even-numbered referral of X is assigned exactly Y's
stored beneficiary_id — the one-hop grand-introducer's beneficiary. -/
theorem c5_one_hop_grand_beneficiary (L : Ledger) (a X Y : Int) (rX rY : Account)
    (hfresh : hasId L a = false)
    (hX : findById L X = some rX)
    (hXi : rX.introducer_id = some Y)
    (hY : findById L Y = some rY)
    (heven :
      countIntroducer (L ++ [{ id := a, introducer_id := some X, beneficiary_id := none }]) X % 2
        = 0) :
    createCore a X L = .ok (rY.beneficiary_id,
      L ++ [{ id := a, introducer_id := some X, beneficiary_id := rY.beneficiary_id }]) := by
  have hXN := findById_append_left L
    [{ id := a, introducer_id := some X, beneficiary_id := none }] X rX hX
  have hYN := findById_append_left L
    [{ id := a, introducer_id := some X, beneficiary_id := none }] Y rY hY
  have hodd : ¬ (countIntroducer
      (L ++ [{ id := a, introducer_id := some X, beneficiary_id := none }]) X % 2 = 1) := by
    omega
  rw [createCore_eq, if_neg (by simp [hfresh])]
  simp [assignBeneficiary, hodd, hXN, hXi, hYN]

/-- Witness for C5: X = 2 with introducer Y = 1 whose beneficiary is 9;
the second referral of X gets beneficiary 9. -/
theorem c5_one_hop_grand_beneficiary_witness :
    createCore 4 2
      [{ id := 1, introducer_id := some 5, beneficiary_id := some 9 },
       { id := 2, introducer_id := some 1, beneficiary_id := some 1 },
       { id := 3, introducer_id := some 2, beneficiary_id := some 2 }] =
      .ok ((({ id := 1, introducer_id := some 5, beneficiary_id := some 9 } : Account)).beneficiary_id,
        [{ id := 1, introducer_id := some 5, beneficiary_id := some 9 },
         { id := 2, introducer_id := some 1, beneficiary_id := some 1 },
         { id := 3, introducer_id := some 2, beneficiary_id := some 2 }] ++
        [{ id := 4, introducer_id := some 2,
           beneficiary_id :=
             (({ id := 1, introducer_id := some 5, beneficiary_id := some 9 } : Account)).beneficiary_id }]) :=
  c5_one_hop_grand_beneficiary
    [{ id := 1, introducer_id := some 5, beneficiary_id := some 9 },
     { id := 2, introducer_id := some 1, beneficiary_id := some 1 },
     { id := 3, introducer_id := some 2, beneficiary_id := some 2 }]
    4 2 1
    { id := 2, introducer_id := some 1, beneficiary_id := some 1 }
    { id := 1, introducer_id := some 5, beneficiary_id := some 9 }
    (by decide) (by decide) (by decide) (by decide) (by decide)

end BankReferral

namespace BankReferral

theorem bulkLoop_cons (p : JsVal × JsVal) (rest : List (JsVal × JsVal)) (L : Ledger)
    (acc : List (Int × Int × Option Int)) :
    bulkLoop (p :: rest) L acc =
      match toNumber p.1, toNumber p.2 with
      | some a, some i =>
        match createCore a i L with
        | .error e => .error e
        | .ok (ben, L2) => bulkLoop rest L2 (acc ++ [(a, i, ben)])
      | _, _ => .error invalidItemError := by
  rw [bulkLoop]
  cases h1 : toNumber p.1 with
  | none => simp
  | some a =>
    cases h2 : toNumber p.2 with
    | none => simp
    | some i =>
      simp only [createCore]
      cases h3 : insertAccount L a i <;> simp [h3]

end BankReferral

namespace BankReferral

theorem bulkLoop_prefix (items : List (JsVal × JsVal)) :
    ∀ (L : Ledger) (acc rs : List (Int × Int × Option Int)) (L2 : Ledger),
      bulkLoop items L acc = .ok (rs, L2) → ∃ s, L2 = L ++ s := by
  induction items with
  | nil =>
    intro L acc rs L2 h
    simp only [bulkLoop, Except.ok.injEq, Prod.mk.injEq] at h
    exact ⟨[], by simp [h.2]⟩
  | cons p rest ih =>
    intro L acc rs L2 h
    rw [bulkLoop_cons] at h
    cases h1 : toNumber p.1 with
    | none => simp [h1] at h
    | some a =>
      cases h2 : toNumber p.2 with
      | none => simp [h1, h2] at h
      | some i =>
        simp only [h1, h2, createCore_eq] at h
        cases hh : hasId L a with
        | true => simp [hh] at h
        | false =>
          simp only [hh, Bool.false_eq_true, if_false] at h
          obtain ⟨s, hs⟩ := ih _ _ _ _ h
          refine ⟨[{ id := a, introducer_id := some i,
                     beneficiary_id := assignBeneficiary i
                       (L ++ [{ id := a, introducer_id := some i, beneficiary_id := none }]) }]
                   ++ s, ?_⟩
          rw [hs, List.append_assoc]

/-- C9: every creation call, single or batch, successful or not, leaves
the pre-call records in place unchanged as a prefix of the resulting
ledger, and the single-item path appends at most the one newly created
record. -/
theorem c9_frame (x y : JsVal) (L : Ledger) (items : List (JsVal × JsVal)) :
    (addAccount x y L).2.take L.length = L ∧
    (addAccount x y L).2.length ≤ L.length + 1 ∧
    (addAccountsBulk items L).2.take L.length = L := by
  have hsingle : ∃ s : Ledger, (addAccount x y L).2 = L ++ s ∧ s.length ≤ 1 := by
    cases h1 : toNumber x with
    | none => exact ⟨[], by simp [addAccount, h1], by simp⟩
    | some a =>
      cases h2 : toNumber y with
      | none => exact ⟨[], by simp [addAccount, h1, h2], by simp⟩
      | some i =>
        cases hh : hasId L a with
        | true =>
          refine ⟨[], ?_, by simp⟩
          simp [addAccount, h1, h2, createCore_eq, hh]
        | false =>
          refine ⟨[{ id := a, introducer_id := some i,
                     beneficiary_id := assignBeneficiary i
                       (L ++ [{ id := a, introducer_id := some i, beneficiary_id := none }]) }],
                   ?_, by simp⟩
          simp [addAccount, h1, h2, createCore_eq, hh]
  have hbulk : ∃ s : Ledger, (addAccountsBulk items L).2 = L ++ s := by
    by_cases he : items.isEmpty
    · exact ⟨[], by simp [addAccountsBulk, he]⟩
    · cases hbl : bulkLoop items L [] with
      | ok pr =>
        obtain ⟨s, hs⟩ := bulkLoop_prefix items L [] pr.1 pr.2 (by rw [hbl])
        exact ⟨s, by simp [addAccountsBulk, he, hbl, hs]⟩
      | error e => exact ⟨[], by simp [addAccountsBulk, he, hbl]⟩
  obtain ⟨s, hs, hlen⟩ := hsingle
  obtain ⟨s2, hs2⟩ := hbulk
  refine ⟨?_, ?_, ?_⟩
  · rw [hs]; exact List.take_left L s
  · rw [hs]; simp; omega
  · rw [hs2]; exact List.take_left L s2

theorem bulkLoop_error_of_invalid (items : List (JsVal × JsVal)) :
    ∀ (L : Ledger) (acc : List (Int × Int × Option Int)) (p : JsVal × JsVal),
      p ∈ items → (toNumber p.1 = none ∨ toNumber p.2 = none) →
      ∃ e, bulkLoop items L acc = .error e := by
  induction items with
  | nil => intro L acc p hp; cases hp
  | cons q rest ih =>
    intro L acc p hp hbad
    rw [bulkLoop_cons]
    cases h1 : toNumber q.1 with
    | none => exact ⟨invalidItemError, by simp⟩
    | some a =>
      cases h2 : toNumber q.2 with
      | none => exact ⟨invalidItemError, by simp⟩
      | some i =>
        have hpr : p ∈ rest := by
          cases hp with
          | head =>
            cases hbad with
            | inl hb => rw [hb] at h1; cases h1
            | inr hb => rw [hb] at h2; cases h2
          | tail _ h => exact h
        cases hc : createCore a i L with
        | error e => exact ⟨e, by simp [hc]⟩
        | ok pr =>
          obtain ⟨e, he⟩ := ih pr.2 (acc ++ [(a, i, pr.1)]) p hpr hbad
          exact ⟨e, by simp [hc, he]⟩

theorem bulkLoop_error_of_dup (items : List (JsVal × JsVal)) :
    ∀ (L : Ledger) (acc : List (Int × Int × Option Int)) (p : JsVal × JsVal) (a : Int),
      p ∈ items → toNumber p.1 = some a → hasId L a = true →
      ∃ e, bulkLoop items L acc = .error e := by
  induction items with
  | nil => intro L acc p a hp; cases hp
  | cons q rest ih =>
    intro L acc p a hp ha hdup
    rw [bulkLoop_cons]
    cases h1 : toNumber q.1 with
    | none => exact ⟨invalidItemError, by simp⟩
    | some a0 =>
      cases h2 : toNumber q.2 with
      | none => exact ⟨invalidItemError, by simp⟩
      | some i0 =>
        cases hc : createCore a0 i0 L with
        | error e => exact ⟨e, by simp [hc]⟩
        | ok pr =>
          have hpr : p ∈ rest := by
            cases hp with
            | head =>
              rw [ha] at h1
              cases h1
              rw [createCore_eq, hdup] at hc
              cases hc
            | tail _ h => exact h
          have hdup2 : hasId pr.2 a = true := by
            rw [createCore_eq] at hc
            cases hh : hasId L a0 with
            | true => rw [hh] at hc; cases hc
            | false =>
              rw [hh] at hc
              simp only [Bool.false_eq_true, if_false, Except.ok.injEq] at hc
              rw [← hc, hasId_append, hdup]
              rfl
          obtain ⟨e, he⟩ := ih pr.2 (acc ++ [(a0, i0, pr.1)]) p a hpr ha hdup2
          exact ⟨e, by simp [hc, he]⟩

/-- C2: a batch in which any item fails — a non-numeric field anywhere,
or a duplicate of a pre-existing id — persists nothing: whenever the loop
fails the handler answers a single server-error response and the ledger
after the call equals the ledger before it; a non-numeric field and a
duplicate id each make the loop fail. -/
theorem c2_bulk_atomicity (items : List (JsVal × JsVal)) (L : Ledger) :
    (∀ e : JsError, bulkLoop items L [] = .error e →
      addAccountsBulk items L =
        (.serverError (if e.message = "" then "Database error" else e.message), L)) ∧
    (∀ p : JsVal × JsVal, p ∈ items → (toNumber p.1 = none ∨ toNumber p.2 = none) →
      ∃ e, bulkLoop items L [] = .error e) ∧
    (∀ p : JsVal × JsVal, ∀ a : Int, p ∈ items → toNumber p.1 = some a →
      hasId L a = true → ∃ e, bulkLoop items L [] = .error e) := by
  refine ⟨?_, ?_, ?_⟩
  · intro e he
    cases items with
    | nil => cases he
    | cons q rest =>
      simp [addAccountsBulk, he, bulkCatch]
  · intro p hp hbad
    exact bulkLoop_error_of_invalid items L [] p hp hbad
  · intro p a hp ha hdup
    exact bulkLoop_error_of_dup items L [] p a hp ha hdup

/-- Witness for C2: a batch whose second item has an absent introducer_id
is rejected whole over a nonempty ledger, which is returned unchanged. -/
theorem c2_bulk_atomicity_witness :
    addAccountsBulk [(.num 1, .num 9), (.num 2, .undef)]
      [{ id := 9, introducer_id := none, beneficiary_id := none }] =
      (.serverError "Invalid item: account_id and introducer_id must be numbers",
       [{ id := 9, introducer_id := none, beneficiary_id := none }]) := by
  have h := (c2_bulk_atomicity [(.num 1, .num 9), (.num 2, .undef)]
    [{ id := 9, introducer_id := none, beneficiary_id := none }]).1 invalidItemError rfl
  exact h.trans (by decide)

end BankReferral

namespace BankReferral

theorem bulkLoop_eq_seqCreate (items : List (JsVal × JsVal)) :
    ∀ (L : Ledger) (acc : List (Int × Int × Option Int)) (cs : List (Int × Int)),
      coerceItems items = some cs →
      bulkLoop items L acc = (seqCreate cs L).map (fun p => (acc ++ p.1, p.2)) := by
  induction items with
  | nil =>
    intro L acc cs hc
    simp only [coerceItems, Option.some.injEq] at hc
    rw [← hc]
    simp [bulkLoop, seqCreate, Except.map]
  | cons p rest ih =>
    intro L acc cs hc
    rw [bulkLoop_cons]
    cases h1 : toNumber p.1 with
    | none => simp [coerceItems, h1] at hc
    | some a =>
      cases h2 : toNumber p.2 with
      | none => simp [coerceItems, h1, h2] at hc
      | some i =>
        simp only [coerceItems, h1, h2] at hc
        cases hrest : coerceItems rest with
        | none => rw [hrest] at hc; cases hc
        | some cs2 =>
          rw [hrest] at hc
          simp only [Option.map_some', Option.some.injEq] at hc
          rw [← hc]
          simp only [h1, h2, seqCreate]
          cases hcr : createCore a i L with
          | error e => simp [Except.map]
          | ok pr =>
            obtain ⟨ben, L2⟩ := pr
            have hih := ih L2 (acc ++ [(a, i, ben)]) cs2 hrest
            cases hs : seqCreate cs2 L2 with
            | error e => simp [Except.map, hih, hs]
            | ok qr => simp [Except.map, hih, hs, List.append_assoc]

theorem seqCreate_proj (cs : List (Int × Int)) :
    ∀ (L : Ledger) (results : List (Int × Int × Option Int)) (L2 : Ledger),
      seqCreate cs L = .ok (results, L2) →
      results.map (fun t => (t.1, t.2.1)) = cs := by
  induction cs with
  | nil =>
    intro L results L2 h
    simp only [seqCreate, Except.ok.injEq, Prod.mk.injEq] at h
    simp [← h.1]
  | cons c rest ih =>
    intro L results L2 h
    obtain ⟨a, i⟩ := c
    simp only [seqCreate] at h
    cases hcr : createCore a i L with
    | error e => simp [hcr] at h
    | ok pr =>
      obtain ⟨ben, L1⟩ := pr
      simp only [hcr] at h
      cases hs : seqCreate rest L1 with
      | error e => simp [hs] at h
      | ok qr =>
        obtain ⟨rs2, L3⟩ := qr
        simp only [hs, Except.ok.injEq, Prod.mk.injEq] at h
        rw [← h.1]
        simp [ih L1 rs2 L3 hs]

theorem coerceItems_length (items : List (JsVal × JsVal)) :
    ∀ cs : List (Int × Int), coerceItems items = some cs → cs.length = items.length := by
  induction items with
  | nil => intro cs hc; simp only [coerceItems, Option.some.injEq] at hc; simp [← hc]
  | cons p rest ih =>
    intro cs hc
    cases h1 : toNumber p.1 with
    | none => simp [coerceItems, h1] at hc
    | some a =>
      cases h2 : toNumber p.2 with
      | none => simp [coerceItems, h1, h2] at hc
      | some i =>
        simp only [coerceItems, h1, h2] at hc
        cases hrest : coerceItems rest with
        | none => rw [hrest] at hc; cases hc
        | some cs2 =>
          rw [hrest] at hc
          simp only [Option.map_some', Option.some.injEq] at hc
          rw [← hc]
          simp [ih cs2 hrest]

/-- C6: a successful batch of valid items is the sequential composition
of the single-item core steps in input order from the same starting
ledger: the same results and final ledger arise, the returned sequence
has one entry per input item, and its id/introducer components restate
the coerced input in input order. -/
theorem c6_bulk_refines_sequential (items : List (JsVal × JsVal)) (cs : List (Int × Int))
    (L : Ledger) (results : List (Int × Int × Option Int)) (L2 : Ledger)
    (hc : coerceItems items = some cs)
    (hb : addAccountsBulk items L = (.createdMany results, L2)) :
    seqCreate cs L = .ok (results, L2) ∧
    results.length = items.length ∧
    results.map (fun t => (t.1, t.2.1)) = cs := by
  have hloop : bulkLoop items L [] = .ok (results, L2) := by
    unfold addAccountsBulk at hb
    by_cases he : items.isEmpty
    · simp [he] at hb
    · simp only [he, if_false] at hb
      cases hbl : bulkLoop items L [] with
      | ok pr =>
        obtain ⟨rs0, L0⟩ := pr
        rw [hbl] at hb
        simp only [Bool.false_eq_true, if_false, Prod.mk.injEq,
          ApiResponse.createdMany.injEq] at hb
        rw [hb.1, hb.2]
      | error e =>
        rw [hbl] at hb
        simp [bulkCatch] at hb
  have heq := bulkLoop_eq_seqCreate items L [] cs hc
  rw [hloop] at heq
  have hseq : seqCreate cs L = .ok (results, L2) := by
    cases hs : seqCreate cs L with
    | error e => simp [hs, Except.map] at heq
    | ok qr =>
      obtain ⟨rs2, L3⟩ := qr
      simp only [hs, Except.map, Except.ok.injEq, Prod.mk.injEq, List.nil_append] at heq
      rw [heq.1, heq.2]
  have hproj := seqCreate_proj cs L results L2 hseq
  refine ⟨hseq, ?_, hproj⟩
  rw [← coerceItems_length items cs hc, ← hproj]
  simp

/-- Witness for C6: a three-item batch over the empty ledger, the third
item an even referral whose grand-introducer record is missing. -/
theorem c6_bulk_refines_sequential_witness :
    seqCreate [(1, 0), (2, 1), (3, 1)] [] =
      .ok ([(1, 0, some 0), (2, 1, some 1), (3, 1, none)],
        [{ id := 1, introducer_id := some 0, beneficiary_id := some 0 },
         { id := 2, introducer_id := some 1, beneficiary_id := some 1 },
         { id := 3, introducer_id := some 1, beneficiary_id := none }]) ∧
    ([(1, 0, some 0), (2, 1, some 1), (3, 1, none)] :
        List (Int × Int × Option Int)).length =
      [((.num 1 : JsVal), (.num 0 : JsVal)), (.num 2, .num 1), (.num 3, .num 1)].length ∧
    ([(1, 0, some 0), (2, 1, some 1), (3, 1, none)] :
        List (Int × Int × Option Int)).map (fun t => (t.1, t.2.1)) = [(1, 0), (2, 1), (3, 1)] :=
  c6_bulk_refines_sequential
    [(.num 1, .num 0), (.num 2, .num 1), (.num 3, .num 1)]
    [(1, 0), (2, 1), (3, 1)]
    []
    [(1, 0, some 0), (2, 1, some 1), (3, 1, none)]
    [{ id := 1, introducer_id := some 0, beneficiary_id := some 0 },
     { id := 2, introducer_id := some 1, beneficiary_id := some 1 },
     { id := 3, introducer_id := some 1, beneficiary_id := none }]
    rfl (by decide)

end BankReferral

namespace BankReferral

theorem runSeq_cons (a X : Int) (rest : List Int) (L : Ledger) :
    runSeq (a :: rest) X L =
      match createCore a X L with
      | .error e => .error e
      | .ok (ben, L2) =>
        match runSeq rest X L2 with
        | .error e => .error e
        | .ok (bens, L3) => .ok (ben :: bens, L3) := rfl

theorem findById_singleton_ne (r : Account) (x : Int) (h : ¬ (r.id = x)) :
    findById [r] x = none := by
  simp [findById, h]

theorem runSeq_spec_aux (X : Int) (ids : List Int) :
    ∀ (L : Ledger) (j : Nat),
      ids.Nodup →
      (∀ z ∈ ids, hasId L z = false ∧ z ≠ X) →
      findById L X = none →
      countIntroducer L X = j →
      ∃ bens L3, runSeq ids X L = .ok (bens, L3) ∧
        bens.length = ids.length ∧
        ∀ k : Nat, ∀ hk : k < bens.length,
          bens.get ⟨k, hk⟩ = if (j + k) % 2 = 0 then some X else none := by
  induction ids with
  | nil =>
    intro L j _ _ _ _
    exact ⟨[], L, rfl, rfl, fun k hk => absurd hk (by simp)⟩
  | cons a rest ih =>
    intro L j hnd hfresh hX hcnt
    have ha := hfresh a (List.mem_cons_self a rest)
    have hanotin : a ∉ rest := (List.nodup_cons.mp hnd).1
    have hc1 : countIntroducer
        (L ++ [{ id := a, introducer_id := some X, beneficiary_id := none }]) X = j + 1 := by
      rw [countIntroducer_append, hcnt]
      simp [countIntroducer]
    have hfnone : findById
        (L ++ [{ id := a, introducer_id := some X, beneficiary_id := none }]) X = none := by
      rw [findById_append_right L _ X hX]
      exact findById_singleton_ne _ X ha.2
    have hben : assignBeneficiary X
        (L ++ [{ id := a, introducer_id := some X, beneficiary_id := none }]) =
        if j % 2 = 0 then some X else none := by
      unfold assignBeneficiary
      rw [hc1]
      by_cases hp : (j + 1) % 2 = 1
      · have hq : j % 2 = 0 := by omega
        simp [hp, hq]
      · have hq : ¬ (j % 2 = 0) := by omega
        simp [hp, hfnone, hq]
    set b : Option Int := if j % 2 = 0 then some X else none with hb
    set L2 : Ledger := L ++ [{ id := a, introducer_id := some X, beneficiary_id := b }] with hL2
    have hstep : createCore a X L = .ok (b, L2) := by
      rw [createCore_eq, if_neg (by simp [ha.1]), hben]
    have hfresh2 : ∀ z ∈ rest, hasId L2 z = false ∧ z ≠ X := by
      intro z hz
      have hz2 := hfresh z (List.mem_cons_of_mem a hz)
      refine ⟨?_, hz2.2⟩
      rw [hL2, hasId_append, hz2.1]
      have : a ≠ z := fun hc => hanotin (hc ▸ hz)
      simp [hasId, this]
    have hX2 : findById L2 X = none := by
      rw [hL2, findById_append_right L _ X hX]
      exact findById_singleton_ne _ X ha.2
    have hcnt2 : countIntroducer L2 X = j + 1 := by
      rw [hL2, countIntroducer_append, hcnt]
      simp [countIntroducer]
    obtain ⟨bens2, L3, hrun2, hlen2, hidx2⟩ :=
      ih L2 (j + 1) (List.nodup_cons.mp hnd).2 hfresh2 hX2 hcnt2
    refine ⟨b :: bens2, L3, ?_, by simp [hlen2], ?_⟩
    · rw [runSeq_cons]
      simp only [hstep, hrun2]
    · intro k hk
      cases k with
      | zero => simp [hb]
      | succ k2 =>
        have hk2 : k2 < bens2.length := by
          simpa using hk
        have hidx := hidx2 k2 hk2
        have hget : (b :: bens2).get ⟨k2 + 1, hk⟩ = bens2.get ⟨k2, hk2⟩ := rfl
        rw [hget, hidx]
        exact if_congr (by omega) rfl rfl

/-- C4 counterexample: with X = 5 and an empty starting ledger (so no
record has id 5 and none has introducer 5), the two creations (id 5,
introducer 5) then (id 6, introducer 5) both succeed, yet the 2nd (even)
created account receives beneficiary 5, not none: the created account
whose own id equals X makes the even-count lookup succeed. -/
theorem c4_counterexample :
    runSeq [5, 6] 5 [] =
      .ok ([some 5, some 5],
        [{ id := 5, introducer_id := some 5, beneficiary_id := some 5 },
         { id := 6, introducer_id := some 5, beneficiary_id := some 5 }]) ∧
    countIntroducer [] 5 = 0 ∧
    findById ([] : Ledger) 5 = none ∧
    some (5 : Int) ≠ (none : Option Int) := by
  refine ⟨rfl, rfl, rfl, by decide⟩

/-- C4 amended: for a sequence of successful creations all naming
introducer X, starting from a ledger with no record of id X and no
record introduced by X, and where additionally no created account's own
id equals X, the i-th beneficiary is X for odd i and none for even i. -/
theorem c4_alternating_same_introducer (X : Int) (ids : List Int) (L : Ledger)
    (hnd : ids.Nodup)
    (hfresh : ∀ z ∈ ids, hasId L z = false ∧ z ≠ X)
    (hX : findById L X = none)
    (hcnt : countIntroducer L X = 0) :
    ∃ bens L3, runSeq ids X L = .ok (bens, L3) ∧
      bens.length = ids.length ∧
      ∀ k : Nat, ∀ hk : k < bens.length,
        bens.get ⟨k, hk⟩ = if (k + 1) % 2 = 1 then some X else none := by
  obtain ⟨bens, L3, h1, h2, h3⟩ := runSeq_spec_aux X ids L 0 hnd hfresh hX hcnt
  refine ⟨bens, L3, h1, h2, ?_⟩
  intro k hk
  rw [h3 k hk]
  exact if_congr (by omega) rfl rfl

/-- Witness for the amended C4: three accounts 1, 2, 3 all introduced by
5 over the empty ledger alternate X, none, X. -/
theorem c4_alternating_same_introducer_witness :
    ∃ bens L3, runSeq [1, 2, 3] 5 [] = .ok (bens, L3) ∧
      bens.length = ([1, 2, 3] : List Int).length ∧
      ∀ k : Nat, ∀ hk : k < bens.length,
        bens.get ⟨k, hk⟩ = if (k + 1) % 2 = 1 then some 5 else none :=
  c4_alternating_same_introducer 5 [1, 2, 3] [] (by decide) (by decide) rfl rfl

end BankReferral
